import Mathlib

/-!
Shallow embedding of the IRCCloud bot stream-ingestion and dispatch engine
(Go package `bot`: `event.go`, `bot.go`, `default_handlers.go`).

Events are Go `map[string]interface{}` values; we embed them as association
lists from field name to a dynamically-typed value.  A Go type assertion
`v.(T)` that fails panics at runtime; embedded accessors return `Option`
(`none` models the panic) or an explicit `panicked` outcome.
-/

namespace Bot

/-- Dynamically-typed JSON-ish value stored in an event field.  `conn` stands
for the `*IRCCloudBot` back-reference the engine stores under `"_conn"`. -/
inductive FieldValue where
  | str : String → FieldValue
  | num : Int → FieldValue
  | bool : Bool → FieldValue
  | conn : FieldValue
  | null : FieldValue
deriving DecidableEq, Repr

/-- Go: `type Event map[string]interface{}` — embedded as an association list
with first-match lookup. -/
abbrev Event := List (String × FieldValue)

/-- Map lookup `e[k]`: first binding for `k`, `none` when the key is absent. -/
def Event.get (e : Event) (k : String) : Option FieldValue :=
  (e.find? (fun p => p.1 == k)).map (fun p => p.2)

/-- Go map assignment `e[k] = v`: replaces any existing binding for `k`. -/
def Event.set (e : Event) (k : String) (v : FieldValue) : Event :=
  (k, v) :: e.filter (fun p => p.1 != k)

/-- Go: `e["_from_backlog"].(bool)` in `Event.FromBacklog`.  The type
assertion is unchecked: a missing or non-boolean field panics, modelled as
`none`. -/
def Event.FromBacklog (e : Event) : Option Bool :=
  match Event.get e "_from_backlog" with
  | some (FieldValue.bool b) => some b
  | _ => none

/-- Outcome of `Event.Reply`: `say cid target msg` models the single outbound
call `e.Conn().Say(cid, chan, message)` (a POST to `/chat/say`); `err` models
the returned `error`; `panicked` models a failed type assertion at runtime. -/
inductive ReplyResult where
  | say : Int → String → String → ReplyResult
  | err : String → ReplyResult
  | panicked : ReplyResult
deriving DecidableEq, Repr

/-- Go `Event.Reply`: if `e["type"] != "buffer_msg"` return
`fmt.Errorf("Cannot reply to type '%s'", e["type"].(string))` — the format
argument re-asserts the field as a string and panics when it is missing or
not text; otherwise call `e.Conn().Say(int(e["cid"].(float64)),
e["chan"].(string), message)`, whose assertions panick on ill-typed fields. -/
def Event.Reply (e : Event) (message : String) : ReplyResult :=
  if Event.get e "type" = some (FieldValue.str "buffer_msg") then
    match Event.get e "_conn", Event.get e "cid", Event.get e "chan" with
    | some FieldValue.conn, some (FieldValue.num cid), some (FieldValue.str ch) =>
        ReplyResult.say cid ch message
    | _, _, _ => ReplyResult.panicked
  else
    match Event.get e "type" with
    | some (FieldValue.str t) => ReplyResult.err ("Cannot reply to type " ++ t)
    | _ => ReplyResult.panicked

/-- Whether an optional field value is a text value. -/
def isStrVal : Option FieldValue → Bool
  | some (FieldValue.str _) => true
  | _ => false

/-! ## Outbound authenticated requests (`bot.go`) -/

/-- The HTTP request built by `getAuthenticatedRequest` (method, absolute
URL, and the `cookie` header carrying the session credential). -/
structure HTTPRequest where
  method : String
  url : String
  cookie : String
deriving DecidableEq, Repr

/-- Result of building a request: `fatalLog` models `log.Fatalf`, which
aborts the process. -/
inductive BuildResult where
  | fatalLog : String → BuildResult
  | built : HTTPRequest → BuildResult
deriving DecidableEq, Repr

/-- Go `IRCCloudBot.getAuthenticatedRequest`: aborts via `log.Fatalf` when
the session credential is empty, otherwise builds the request against
`https://www.irccloud.com` with the session in the cookie header. -/
def getAuthenticatedRequest (session method urlPath : String) : BuildResult :=
  if session = "" then
    BuildResult.fatalLog "Login did not work, session is empty!"
  else
    BuildResult.built
      { method := method
        url := "https://www.irccloud.com" ++ urlPath
        cookie := "session=" ++ session }

/-! ## Decoder and dispatch (`bot.go`, `listenAndParseEvents`) -/

/-- Capacity of the buffered `eventChan` created in `WithContext`
(`make(chan Event, 100)`). -/
def chanCapacity : Nat := 100

/-- One line delivered by the stream scanner: either `json.Unmarshal`
rejects it, or it decodes to a record of fields. -/
inductive RawLine where
  | unparsable : String → RawLine
  | record : Event → RawLine
deriving DecidableEq, Repr

/-- Decode step for a live-stream line (lines 259–265 of `bot.go`):
`e := Event{"_conn": i}` followed by `json.Unmarshal(lr.Bytes(), &e)`, which
merges the parsed keys over the pre-seeded map.  With first-match lookup,
putting the parsed fields first gives parsed keys precedence, and `"_conn"`
is found when the record itself does not carry it.  Note the decoder stamps
only `"_conn"`; no `"_from_backlog"` key is written for live events. -/
def stampLive (fields : Event) : Event :=
  fields ++ [("_conn", FieldValue.conn)]

/-- `decodeLine`: `none` when `json.Unmarshal` fails (the line is logged and
skipped), otherwise the stamped event. -/
def decodeLine : RawLine → Option Event
  | RawLine.unparsable _ => none
  | RawLine.record fields => some (stampLive fields)

/-- Outcome of one dispatch step or one stream loop.  `fatal` carries the
`error` value returned from `listenAndParseEvents`; `panicked` models a
failed type assertion; `blocked` models a channel send stuck on a full
queue with no consumer draining it. -/
inductive StepResult where
  | ok : StepResult
  | fatal : String → StepResult
  | panicked : StepResult
  | blocked : StepResult
deriving DecidableEq, Repr

/-- Context handle passed to `ctxhttp.Do`: the bot's parent context or the
per-stream-attempt `idleContext` (cancelled by the idle watchdog). -/
inductive Ctx where
  | parent : Ctx
  | idle : Ctx
deriving DecidableEq, Repr

/-- Result of the secondary authenticated fetch performed by
`handleOOBInclude`: the HTTP call may fail, the JSON decode of the body may
fail, or a list of backlog events is decoded. -/
inductive FetchResult where
  | httpErr : String → FetchResult
  | decodeErr : String → FetchResult
  | events : List Event → FetchResult
deriving DecidableEq, Repr

/-- Oracle for the backlog fetch: maps the requested URL to its outcome. -/
abbrev Fetch := String → FetchResult

/-- Sequential blocking sends `i.eventChan <- e` for a list of events:
events are appended while the buffered channel has room; the first send that
finds the queue full blocks (no consumer in the dispatch path), so the
remaining events are never sent.  Returns the final queue and whether every
send completed. -/
def sendAll (q : List Event) : List Event → List Event × Bool
  | [] => (q, true)
  | e :: rest =>
    if q.length < chanCapacity then sendAll (q ++ [e]) rest
    else (q, false)

/-- Outcome of running an internal handler: the context used for a fetch (if
one was issued), the queue after any channel sends, and the step result. -/
structure InternalOut where
  fetchCtx : Option Ctx
  queue : List Event
  result : StepResult
deriving Repr

/-- Go `handleOOBInclude` (`default_handlers.go` variant matching this
`bot.go`): reads `evt["_conn"].(*IRCCloudBot)` and `evt["url"].(string)`
(each assertion panics on a missing or ill-typed field), issues the fetch
with `i.idleContext`, decodes the body into `[]Event`, sets
`e["_from_backlog"] = true` on each decoded event and sends each on
`i.eventChan`.  An HTTP failure returns
`Could not fetch oob_include: ...`; a decode failure returns its error. -/
def handleOOBInclude (f : Fetch) (evt : Event) (q : List Event) : InternalOut :=
  match Event.get evt "_conn" with
  | some FieldValue.conn =>
    match Event.get evt "url" with
    | some (FieldValue.str u) =>
      match f u with
      | FetchResult.httpErr s =>
          ⟨some Ctx.idle, q, StepResult.fatal ("Could not fetch oob_include: " ++ s)⟩
      | FetchResult.decodeErr s => ⟨some Ctx.idle, q, StepResult.fatal s⟩
      | FetchResult.events r =>
          let marked := r.map (fun e => Event.set e "_from_backlog" (FieldValue.bool true))
          match sendAll q marked with
          | (q2, true) => ⟨some Ctx.idle, q2, StepResult.ok⟩
          | (q2, false) => ⟨some Ctx.idle, q2, StepResult.blocked⟩
    | _ => ⟨none, q, StepResult.panicked⟩
  | _ => ⟨none, q, StepResult.panicked⟩

/-- Identifier of a built-in handler registered in the process-wide internal
handler table by the package `init` function. -/
inductive InternalHandlerId where
  | oobInclude : InternalHandlerId
  | idle : InternalHandlerId
deriving DecidableEq, Repr

/-- Go `internalMessageHandlers` map after `init`:
`{"oob_include": handleOOBInclude, "idle": handleIdle}`. -/
def internalMessageHandlers (t : String) : Option InternalHandlerId :=
  if t = "oob_include" then some InternalHandlerId.oobInclude
  else if t = "idle" then some InternalHandlerId.idle
  else none

/-- Run the internal handler for an event.  `handleIdle` is
`func(evt Event) error { return nil }`: a no-op returning success. -/
def runInternalHandler (f : Fetch) :
    InternalHandlerId → Event → List Event → InternalOut
  | InternalHandlerId.oobInclude, evt, q => handleOOBInclude f evt q
  | InternalHandlerId.idle, _, q => ⟨none, q, StepResult.ok⟩

/-- An externally registered handler: a name (for invocation traces) and its
behaviour, `none` meaning the handler returned `nil`. -/
abbrev ExtHandler := String × (Event → Option String)

/-- The `eventHandlers` registration table: event type to ordered handler
list, as a map embedded as an association list. -/
abbrev HandlerTable := List (String × List ExtHandler)

/-- Map lookup `i.eventHandlers[t]`. -/
def lookupTable (tbl : HandlerTable) (t : String) : Option (List ExtHandler) :=
  (tbl.find? (fun p => p.1 == t)).map (fun p => p.2)

/-- Map assignment `i.eventHandlers[t] = hs`. -/
def setTable (tbl : HandlerTable) (t : String) (hs : List ExtHandler) : HandlerTable :=
  (t, hs) :: tbl.filter (fun p => p.1 != t)

/-- Go `IRCCloudBot.RegisterMessageHandler`: first registration for a type
creates a one-element list, later registrations append, so list order is
registration order. -/
def RegisterMessageHandler (tbl : HandlerTable) (t : String) (eh : ExtHandler) :
    HandlerTable :=
  match lookupTable tbl t with
  | none => setTable tbl t [eh]
  | some ehs => setTable tbl t (ehs ++ [eh])

/-- Configuration of a bot instance relevant to dispatch: the two flags and
the external handler registration table. -/
structure BotEnv where
  yieldInternalEvents : Bool
  dropUnhandledEvents : Bool
  eventHandlers : HandlerTable

/-- A handler invocation recorded by the dispatch path. -/
inductive HandlerCall where
  | internal : String → HandlerCall
  | external : String → String → HandlerCall
deriving DecidableEq, Repr

/-- Only the external invocations of a trace. -/
def externalCalls (cs : List HandlerCall) : List HandlerCall :=
  cs.filter (fun c => match c with | HandlerCall.external _ _ => true | _ => false)

/-- Run the registered external handlers in order; the first `error` aborts
the remaining handlers.  Returns the names invoked (in order) and the first
error, if any. -/
def runExternalHandlers (e : Event) : List ExtHandler → List String × Option String
  | [] => ([], none)
  | (n, h) :: rest =>
    match h e with
    | some err => ([n], some err)
    | none =>
      let o := runExternalHandlers e rest
      (n :: o.1, o.2)

/-- Outcome of dispatching one decoded event: the queue after the step, the
handler invocations in order, and the step result. -/
structure DispatchOut where
  queue : List Event
  calls : List HandlerCall
  result : StepResult
deriving Repr

/-- Final branch of the dispatch (lines 283–287 of `bot.go`): with no
external handler registered, the event is sent on `eventChan` only when
`DropUnhandledEvents` is unset; the send blocks on a full queue.  When the
flag is set the event is discarded unconditionally — the branch performs no
send at all. -/
def offerToQueue (env : BotEnv) (e : Event) (q : List Event) : DispatchOut :=
  if !env.dropUnhandledEvents then
    if q.length < chanCapacity then ⟨q ++ [e], [], StepResult.ok⟩
    else ⟨q, [], StepResult.blocked⟩
  else ⟨q, [], StepResult.ok⟩

/-- External dispatch (lines 277–287 of `bot.go`): when the handler table
holds a non-empty list for the type, run those handlers in order, the first
error becoming the fatal stream error; otherwise offer the event to the
output queue. -/
def externalDispatch (env : BotEnv) (e : Event) (t : String) (q : List Event) :
    DispatchOut :=
  match lookupTable env.eventHandlers t with
  | some ehs =>
    if 0 < ehs.length then
      let o := runExternalHandlers e ehs
      match o.2 with
      | some err => ⟨q, o.1.map (HandlerCall.external t), StepResult.fatal err⟩
      | none => ⟨q, o.1.map (HandlerCall.external t), StepResult.ok⟩
    else offerToQueue env e q
  | none => offerToQueue env e q

/-- Dispatch of one decoded event (lines 269–288 of `bot.go`): read
`e["type"].(string)` (panicking on a missing or non-text type), run the
internal handler if the internal table claims the type (its error
terminating the attempt), then reach external dispatch iff the type was not
internally claimed or `YieldInternalEvents` is set. -/
def dispatchEvent (env : BotEnv) (f : Fetch) (e : Event) (q : List Event) :
    DispatchOut :=
  match Event.get e "type" with
  | some (FieldValue.str t) =>
    match internalMessageHandlers t with
    | some ih =>
      let io := runInternalHandler f ih e q
      match io.result with
      | StepResult.ok =>
        if env.yieldInternalEvents then
          let d := externalDispatch env e t io.queue
          ⟨d.queue, HandlerCall.internal t :: d.calls, d.result⟩
        else ⟨io.queue, [HandlerCall.internal t], StepResult.ok⟩
      | r => ⟨io.queue, [HandlerCall.internal t], r⟩
    | none => externalDispatch env e t q
  | _ => ⟨q, [], StepResult.panicked⟩

/-! ## Stream loop, attempt result, supervisor (`bot.go`) -/

/-- Outcome of the scanner loop over the whole stream: final queue, number
of events that entered dispatch, the texts logged for skipped unparsable
lines (`Got unparsable message: ...`), and how the loop ended (`ok` = every
line consumed). -/
structure StreamOut where
  queue : List Event
  dispatched : Nat
  skippedLogs : List String
  result : StepResult
deriving Repr

/-- The `for lr.Scan()` loop of `listenAndParseEvents`: an unparsable line
is logged and skipped (`continue`); a decodable line is stamped, enters
dispatch, and a fatal dispatch result returns immediately, leaving the
remaining lines unread. -/
def processLines (env : BotEnv) (f : Fetch) :
    List RawLine → List Event → StreamOut
  | [], q => ⟨q, 0, [], StepResult.ok⟩
  | RawLine.unparsable s :: rest, q =>
    let o := processLines env f rest q
    { o with skippedLogs := s :: o.skippedLogs }
  | RawLine.record fields :: rest, q =>
    let d := dispatchEvent env f (stampLive fields) q
    match d.result with
    | StepResult.ok =>
      let o := processLines env f rest d.queue
      { o with dispatched := o.dispatched + 1 }
    | r => ⟨d.queue, 1, [], r⟩

/-- How the transport side of one stream attempt behaves: the initial
`ctxhttp.Do` of `GET /chat/stream` may fail, otherwise the scanner yields a
finite sequence of lines ending either at a clean end of stream
(`lr.Err() == nil`) or with a read error. -/
inductive StreamEnd where
  | eof : StreamEnd
  | readErr : String → StreamEnd
deriving DecidableEq, Repr

/-- Transport outcome of one attempt. -/
inductive ConnectResult where
  | connErr : String → ConnectResult
  | stream : List RawLine → StreamEnd → ConnectResult

/-- Value with which one `listenAndParseEvents` call completes: `ret none`
is a `nil` return, `ret (some s)` an error return; `aborted` models the
`log.Fatalf` on an empty session credential. -/
inductive AttemptResult where
  | ret : Option String → AttemptResult
  | panicked : AttemptResult
  | blocked : AttemptResult
  | aborted : AttemptResult
deriving DecidableEq, Repr

/-- Go `IRCCloudBot.listenAndParseEvents`: builds the authenticated stream
request (aborting on an empty session), surfaces a transport failure as
`Unable to request stream: ...`, runs the scanner loop, and afterwards wraps
a read error as `Encountered error while reading the stream: ...` — a clean
end of stream returns `nil`. -/
def listenAndParseEvents (session : String) (env : BotEnv) (f : Fetch)
    (conn : ConnectResult) (q : List Event) : List Event × AttemptResult :=
  if session = "" then (q, AttemptResult.aborted)
  else
    match conn with
    | ConnectResult.connErr s => (q, AttemptResult.ret (some ("Unable to request stream: " ++ s)))
    | ConnectResult.stream lines e =>
      let o := processLines env f lines q
      match o.result with
      | StepResult.ok =>
        match e with
        | StreamEnd.eof => (o.queue, AttemptResult.ret none)
        | StreamEnd.readErr s =>
            (o.queue, AttemptResult.ret (some ("Encountered error while reading the stream: " ++ s)))
      | StepResult.fatal s => (o.queue, AttemptResult.ret (some s))
      | StepResult.panicked => (o.queue, AttemptResult.panicked)
      | StepResult.blocked => (o.queue, AttemptResult.blocked)

/-- Abstract view of one stream attempt as the supervisor sees it: the value
`listenAndParseEvents` returned and whether the parent context was still
uncancelled (`i.parentContext.Err() == nil`) when the attempt ended. -/
structure AttemptSpec where
  result : Option String
  parentAlive : Bool
deriving DecidableEq, Repr

/-- Supervisor state: `started` counts `Start` invocations — each one
creates a fresh `idleContext` with its cancel function and arms a fresh idle
watchdog timer before launching the attempt; `surfaced` records the values
sent on `errChan`. -/
structure SupState where
  started : Nat
  surfaced : List (Option String)
deriving DecidableEq, Repr

/-- Go `IRCCloudBot.Start` unrolled over the successive attempt outcomes:
each call arms a fresh watchdog and runs one attempt; when the attempt ends
with the parent context alive and `AutoReconnect` set, `Start` recurses into
a fresh attempt surfacing nothing; otherwise the attempt's returned value is
sent on `errChan` and the loop ends.  An empty outcome list means the
supervisor is still running. -/
def Start (ar : Bool) : List AttemptSpec → SupState → SupState
  | [], s => s
  | a :: rest, s =>
    let s2 : SupState := { s with started := s.started + 1 }
    if a.parentAlive && ar then Start ar rest s2
    else { s2 with surfaced := s2.surfaced ++ [a.result] }

/-- Go `IRCCloudBot.Err`: `return <-i.errChan` — blocks until a value is
sent; `none` models blocking forever (no Terminated transition yet). -/
def Err (s : SupState) : Option (Option String) :=
  s.surfaced.head?

/-! ## Spec-side refinement definition and concrete inputs -/

/-- Modelled from the spec: backlog events obtained from the supplementary
fetch are re-injected into the same dispatch path as live events, so that
internal/external routing rules (internal handler lookup,
yield-internal-events, drop-unhandled-events) apply to backlog events
exactly as to live ones.  The queue after uniformly routing each backlog
event in order. -/
def reinjectViaDispatch (env : BotEnv) (f : Fetch) (events : List Event)
    (q : List Event) : List Event :=
  events.foldl (fun acc e => (dispatchEvent env f e acc).queue) q

/-- Configuration with `DropUnhandledEvents` set and no external handlers. -/
def envDrop : BotEnv := ⟨false, true, []⟩

/-- Default configuration: both flags off, no external handlers. -/
def envND : BotEnv := ⟨false, false, []⟩

/-- Fetch oracle that is never consulted on the considered inputs. -/
def f0 : Fetch := fun _ => FetchResult.events []

/-- Fetch oracle serving one backlog record of type `idle` at `/backlog`. -/
def fOOB : Fetch := fun u =>
  if u = "/backlog" then FetchResult.events [[("type", FieldValue.str "idle")]]
  else FetchResult.httpErr "no"

/-- A decoded live event of an unclaimed type with no registered handler. -/
def eWave : Event := stampLive [("type", FieldValue.str "wave")]

/-- A decoded live `idle` event (internally claimed type). -/
def eIdle : Event := stampLive [("type", FieldValue.str "idle")]

/-- A decoded live `oob_include` event pointing at `/backlog`. -/
def evtOOB : Event :=
  stampLive [("type", FieldValue.str "oob_include"), ("url", FieldValue.str "/backlog")]

/-- The backlog `idle` record after the handler marks it. -/
def markedIdle : Event :=
  Event.set [("type", FieldValue.str "idle")] "_from_backlog" (FieldValue.bool true)

/-- An external handler that always succeeds. -/
def hOk : ExtHandler := ("h1", fun _ => none)

/-- An external handler that always fails with `boom`. -/
def hBad : ExtHandler := ("h2", fun _ => some "boom")

/-- Configuration with two external handlers registered for type `wave`. -/
def envH : BotEnv := ⟨false, false, [("wave", [hOk, hBad])]⟩

/-! ## Theorems -/

/-- Claim C9: every outbound authenticated request is built with a non-empty
session credential; building one with an empty credential is a fatal
precondition violation that aborts (`log.Fatalf`) rather than silently
proceeding, and every request actually produced carries the session
credential in its cookie header. -/
theorem claim_C9_auth (session method urlPath : String) :
    (session = "" →
      getAuthenticatedRequest session method urlPath =
        BuildResult.fatalLog "Login did not work, session is empty!")
    ∧ (∀ req, getAuthenticatedRequest session method urlPath = BuildResult.built req →
        session ≠ "" ∧ req.cookie = "session=" ++ session) := by
  constructor
  · intro h
    simp [getAuthenticatedRequest, h]
  · intro req h
    by_cases hs : session = ""
    · simp [getAuthenticatedRequest, hs] at h
    · refine ⟨hs, ?_⟩
      simp [getAuthenticatedRequest, hs] at h
      rw [← h]

/-- Witness for C9 at the empty and at a non-empty credential. -/
theorem claim_C9_witness :
    getAuthenticatedRequest "" "GET" "/chat/stream" =
      BuildResult.fatalLog "Login did not work, session is empty!"
    ∧ ("abc" ≠ "" ∧
        (HTTPRequest.mk "GET" "https://www.irccloud.com/chat/stream" "session=abc").cookie =
          "session=" ++ "abc") :=
  ⟨(claim_C9_auth "" "GET" "/chat/stream").1 rfl,
   (claim_C9_auth "abc" "GET" "/chat/stream").2
     (HTTPRequest.mk "GET" "https://www.irccloud.com/chat/stream" "session=abc") (by decide)⟩

/-- Claim C4 (code bug evaluation): the live-stream decoder stamps only the
connection back-reference; no backlog flag is written, so reading the
backlog flag of a live-stream event is a failed type assertion (modelled
as `none`), not `false`. -/
theorem claim_C4_code_eval :
    decodeLine (RawLine.record [("type", FieldValue.str "buffer_msg")]) =
      some [("type", FieldValue.str "buffer_msg"), ("_conn", FieldValue.conn)]
    ∧ Event.FromBacklog
        [("type", FieldValue.str "buffer_msg"), ("_conn", FieldValue.conn)] = none
    ∧ Event.get [("type", FieldValue.str "buffer_msg"), ("_conn", FieldValue.conn)]
        "_conn" = some FieldValue.conn := by
  decide

/-- Claim C5 counterexample: `Reply` on an event whose `type` field is
missing does not return an invalid-operation error — the format argument's
type assertion panics instead. -/
theorem claim_C5_counterexample :
    Event.Reply (stampLive [("cid", FieldValue.num 1)]) "hi" = ReplyResult.panicked
    ∧ ¬ ∃ s, Event.Reply (stampLive [("cid", FieldValue.num 1)]) "hi" =
        ReplyResult.err s := by
  have h1 : Event.Reply (stampLive [("cid", FieldValue.num 1)]) "hi" =
      ReplyResult.panicked := by decide
  refine ⟨h1, ?_⟩
  rintro ⟨s, hs⟩
  rw [h1] at hs
  exact ReplyResult.noConfusion hs

/-- Claim C5 amended: `Reply` on an event whose `type` field is a text value
other than `buffer_msg` returns the invalid-operation error naming that type
and performs no outbound call; a missing or non-text `type` field makes
`Reply` panick on the failed type assertion instead of returning an error;
with type `buffer_msg` and well-typed `_conn`, `cid` and `chan` fields,
`Reply` issues exactly one outbound say to that connection and channel. -/
theorem claim_C5_amended (e : Event) (m : String) :
    (∀ t, Event.get e "type" = some (FieldValue.str t) → t ≠ "buffer_msg" →
        Event.Reply e m = ReplyResult.err ("Cannot reply to type " ++ t))
    ∧ (isStrVal (Event.get e "type") = false → Event.Reply e m = ReplyResult.panicked)
    ∧ (∀ cid ch, Event.get e "type" = some (FieldValue.str "buffer_msg") →
        Event.get e "_conn" = some FieldValue.conn →
        Event.get e "cid" = some (FieldValue.num cid) →
        Event.get e "chan" = some (FieldValue.str ch) →
        Event.Reply e m = ReplyResult.say cid ch m) := by
  refine ⟨?_, ?_, ?_⟩
  · intro t ht hne
    simp [Event.Reply, ht, hne]
  · intro h
    unfold Event.Reply
    rcases hty : Event.get e "type" with _ | v
    · simp [hty]
    · cases v <;> simp [hty, isStrVal] at h ⊢
  · intro cid ch ht hc hcid hch
    simp [Event.Reply, ht, hc, hcid, hch]

/-- Witness for C5 amended at three concrete events: a `buffer_join` event,
an event with a boolean `type` field, and a well-formed `buffer_msg`. -/
theorem claim_C5_witness :
    Event.Reply (stampLive [("type", FieldValue.str "buffer_join")]) "m" =
      ReplyResult.err ("Cannot reply to type " ++ "buffer_join")
    ∧ Event.Reply (stampLive [("type", FieldValue.bool true)]) "m" =
      ReplyResult.panicked
    ∧ Event.Reply
        (stampLive [("type", FieldValue.str "buffer_msg"), ("cid", FieldValue.num 2),
          ("chan", FieldValue.str "#a")]) "m" =
      ReplyResult.say 2 "#a" "m" :=
  ⟨(claim_C5_amended (stampLive [("type", FieldValue.str "buffer_join")]) "m").1
      "buffer_join" (by decide) (by decide),
   (claim_C5_amended (stampLive [("type", FieldValue.bool true)]) "m").2.1 (by decide),
   (claim_C5_amended
      (stampLive [("type", FieldValue.str "buffer_msg"), ("cid", FieldValue.num 2),
        ("chan", FieldValue.str "#a")]) "m").2.2
      2 "#a" (by decide) (by decide) (by decide) (by decide)⟩

/-- Claim C1 counterexample: with `DropUnhandledEvents` set, an event of an
unclaimed type with no registered external handler is discarded even though
the queue is empty (far below capacity) — it is not enqueued when capacity
is available, contradicting the claim that drops happen only on a full
queue. -/
theorem claim_C1_counterexample :
    (dispatchEvent envDrop f0 eWave []).queue = []
    ∧ List.length ([] : List Event) < chanCapacity
    ∧ (dispatchEvent envDrop f0 eWave []).queue ≠ [eWave] := by
  decide

/-- Claim C1 amended: for an event of an externally dispatched type with no
registered external handler, if `DropUnhandledEvents` is unset the event is
sent on the bounded queue — appended when there is capacity, the send
blocking on a full queue; if the flag is set the enqueue is skipped
entirely, discarding the event regardless of queue occupancy. -/
theorem claim_C1_amended (env : BotEnv) (f : Fetch) (e : Event) (q : List Event)
    (t : String)
    (ht : Event.get e "type" = some (FieldValue.str t))
    (hint : internalMessageHandlers t = none)
    (hext : lookupTable env.eventHandlers t = none
      ∨ lookupTable env.eventHandlers t = some []) :
    (env.dropUnhandledEvents = true →
      dispatchEvent env f e q = ⟨q, [], StepResult.ok⟩)
    ∧ (env.dropUnhandledEvents = false → q.length < chanCapacity →
      dispatchEvent env f e q = ⟨q ++ [e], [], StepResult.ok⟩)
    ∧ (env.dropUnhandledEvents = false → chanCapacity ≤ q.length →
      dispatchEvent env f e q = ⟨q, [], StepResult.blocked⟩) := by
  have hd : dispatchEvent env f e q = offerToQueue env e q := by
    rcases hext with h | h <;>
      simp [dispatchEvent, ht, hint, externalDispatch, h]
  refine ⟨?_, ?_, ?_⟩
  · intro h1
    simp [hd, offerToQueue, h1]
  · intro h1 h2
    simp [hd, offerToQueue, h1, h2]
  · intro h1 h2
    simp [hd, offerToQueue, h1, Nat.not_lt.mpr h2]

/-- Witness for C1 amended: concrete unclaimed type, empty handler table,
drop flag unset, empty queue — the event is appended. -/
theorem claim_C1_witness :
    dispatchEvent envND f0 eWave [] = ⟨[eWave], [], StepResult.ok⟩ :=
  (claim_C1_amended envND f0 eWave [] "wave" (by decide) (by decide)
    (Or.inl rfl)).2.1 rfl (by decide)

/-- Claim C2: for every decoded event with a text type `t`, the internal
handler for `t` (if the internal table holds one) is invoked first; the
event reaches external dispatch iff no internal handler exists or
`YieldInternalEvents` is set — with an internal handler and the flag unset,
the dispatch records no external handler call and the queue is exactly what
the internal handler left, so external consumers never observe the event. -/
theorem claim_C2_routing (env : BotEnv) (f : Fetch) (e : Event) (q : List Event)
    (t : String)
    (ht : Event.get e "type" = some (FieldValue.str t)) :
    (∀ ih, internalMessageHandlers t = some ih →
      (dispatchEvent env f e q).calls.head? = some (HandlerCall.internal t))
    ∧ (∀ ih, internalMessageHandlers t = some ih → env.yieldInternalEvents = false →
      dispatchEvent env f e q =
        ⟨(runInternalHandler f ih e q).queue, [HandlerCall.internal t],
          (runInternalHandler f ih e q).result⟩)
    ∧ (internalMessageHandlers t = none →
      dispatchEvent env f e q = externalDispatch env e t q)
    ∧ (∀ ih, internalMessageHandlers t = some ih → env.yieldInternalEvents = true →
      (runInternalHandler f ih e q).result = StepResult.ok →
      dispatchEvent env f e q =
        ⟨(externalDispatch env e t (runInternalHandler f ih e q).queue).queue,
          HandlerCall.internal t ::
            (externalDispatch env e t (runInternalHandler f ih e q).queue).calls,
          (externalDispatch env e t (runInternalHandler f ih e q).queue).result⟩) := by
  refine ⟨?_, ?_, ?_, ?_⟩
  · intro ih hih
    rcases hr : (runInternalHandler f ih e q).result <;>
      cases hy : env.yieldInternalEvents <;>
        simp [dispatchEvent, ht, hih, hr, hy]
  · intro ih hih hy
    rcases hr : (runInternalHandler f ih e q).result <;>
      simp [dispatchEvent, ht, hih, hr, hy]
  · intro hih
    simp [dispatchEvent, ht, hih]
  · intro ih hih hy hr
    simp [dispatchEvent, ht, hih, hr, hy]

/-- Witness for C2 at a concrete `idle` event with the yield flag unset: the
internal no-op handler is invoked and nothing reaches external dispatch. -/
theorem claim_C2_witness :
    dispatchEvent envND f0 eIdle [] =
      ⟨(runInternalHandler f0 InternalHandlerId.idle eIdle []).queue,
        [HandlerCall.internal "idle"],
        (runInternalHandler f0 InternalHandlerId.idle eIdle []).result⟩ :=
  (claim_C2_routing envND f0 eIdle [] "idle" (by decide)).2.1
    InternalHandlerId.idle (by decide) rfl

/-- Sequential blocking sends all complete when the batch fits below the
channel capacity, appending the batch in order. -/
theorem sendAll_fits (l q : List Event) (h : q.length + l.length ≤ chanCapacity) :
    sendAll q l = (q ++ l, true) := by
  induction l generalizing q with
  | nil => simp [sendAll]
  | cons e rest ih =>
    simp only [List.length_cons] at h
    have hq : q.length < chanCapacity := by omega
    rw [sendAll, if_pos hq, ih]
    · simp
    · simp only [List.length_append, List.length_cons, List.length_nil]
      omega

/-- Reading a field right after the map assignment that wrote it. -/
theorem get_set_self (e : Event) (k : String) (v : FieldValue) :
    Event.get (Event.set e k v) k = some v := by
  simp [Event.get, Event.set, List.find?]

/-- Claim C3 counterexample: a backlog fetch that yields one record of the
internally claimed type `idle`.  The handler pushes the marked record
straight onto the output queue, while re-injecting it into the live dispatch
path (as the claim states) would have let the internal `idle` handler claim
it and, with `YieldInternalEvents` unset, kept it off the queue — so
internal/external routing rules do not apply to backlog events as they do
to live ones. -/
theorem claim_C3_counterexample :
    (dispatchEvent envND fOOB evtOOB []).queue = [markedIdle]
    ∧ reinjectViaDispatch envND fOOB [markedIdle] [] = []
    ∧ ([markedIdle] : List Event) ≠ ([] : List Event) := by
  decide

/-- Claim C3 amended: the `oob_include` handler fetches the address in the
event's `url` field using the current stream attempt's cancellable idle
context; an HTTP failure or a decode failure of the response is a fatal
stream error; each decoded backlog event is marked with backlog flag true
and sent directly on the output queue (a blocking channel send), bypassing
the dispatch path — internal handler lookup, `YieldInternalEvents` and
`DropUnhandledEvents` are not applied to backlog events.  Within dispatch of
the `oob_include` event itself (yield flag unset), the step ends with the
queue the handler produced and no external handler call. -/
theorem claim_C3_amended (f : Fetch) (evt : Event) (q : List Event) (u : String)
    (hc : Event.get evt "_conn" = some FieldValue.conn)
    (hu : Event.get evt "url" = some (FieldValue.str u)) :
    (handleOOBInclude f evt q).fetchCtx = some Ctx.idle
    ∧ (∀ r, f u = FetchResult.events r →
        q.length + r.length ≤ chanCapacity →
        handleOOBInclude f evt q =
          ⟨some Ctx.idle,
            q ++ r.map (fun e => Event.set e "_from_backlog" (FieldValue.bool true)),
            StepResult.ok⟩
        ∧ ∀ e2 ∈ r.map (fun e => Event.set e "_from_backlog" (FieldValue.bool true)),
            Event.get e2 "_from_backlog" = some (FieldValue.bool true))
    ∧ (∀ s, f u = FetchResult.httpErr s →
        handleOOBInclude f evt q =
          ⟨some Ctx.idle, q, StepResult.fatal ("Could not fetch oob_include: " ++ s)⟩)
    ∧ (∀ s, f u = FetchResult.decodeErr s →
        handleOOBInclude f evt q = ⟨some Ctx.idle, q, StepResult.fatal s⟩)
    ∧ (∀ env, Event.get evt "type" = some (FieldValue.str "oob_include") →
        env.yieldInternalEvents = false →
        dispatchEvent env f evt q =
          ⟨(handleOOBInclude f evt q).queue, [HandlerCall.internal "oob_include"],
            (handleOOBInclude f evt q).result⟩) := by
  refine ⟨?_, ?_, ?_, ?_, ?_⟩
  · rcases hf : f u with s | s | r <;>
      simp [handleOOBInclude, hc, hu, hf]
    rcases hs : sendAll q (r.map (fun e => Event.set e "_from_backlog" (FieldValue.bool true)))
      with ⟨q2, c⟩
    cases c <;> simp [hs]
  · intro r hf hlen
    have hs : sendAll q (r.map (fun e => Event.set e "_from_backlog" (FieldValue.bool true))) =
        (q ++ r.map (fun e => Event.set e "_from_backlog" (FieldValue.bool true)), true) := by
      apply sendAll_fits
      simpa using hlen
    refine ⟨by simp [handleOOBInclude, hc, hu, hf, hs], ?_⟩
    intro e2 he2
    rcases List.mem_map.mp he2 with ⟨e3, _, he3⟩
    rw [← he3]
    exact get_set_self e3 "_from_backlog" (FieldValue.bool true)
  · intro s hf
    simp [handleOOBInclude, hc, hu, hf]
  · intro s hf
    simp [handleOOBInclude, hc, hu, hf]
  · intro env ht hy
    have hih : internalMessageHandlers "oob_include" = some InternalHandlerId.oobInclude := rfl
    rcases hr : (handleOOBInclude f evt q).result <;>
      simp [dispatchEvent, ht, hih, runInternalHandler, hr, hy]

/-- Witness for C3 amended at the concrete oob event served one backlog
record by the fetch oracle. -/
theorem claim_C3_witness :
    handleOOBInclude fOOB evtOOB [] =
      ⟨some Ctx.idle,
        [] ++ [[("type", FieldValue.str "idle")]].map
          (fun e => Event.set e "_from_backlog" (FieldValue.bool true)),
        StepResult.ok⟩
    ∧ dispatchEvent envND fOOB evtOOB [] =
      ⟨(handleOOBInclude fOOB evtOOB []).queue, [HandlerCall.internal "oob_include"],
        (handleOOBInclude fOOB evtOOB []).result⟩ :=
  ⟨((claim_C3_amended fOOB evtOOB [] "/backlog" (by decide) (by decide)).2.1
      [[("type", FieldValue.str "idle")]] (by decide) (by decide)).1,
   (claim_C3_amended fOOB evtOOB [] "/backlog" (by decide) (by decide)).2.2.2.2
      envND (by decide) rfl⟩

/-- Claim C6: in any interleaving of unparsable and decodable lines, each
unparsable line is logged and skipped, the loop runs to the end of the
stream, and the number of events entering dispatch equals the number of
decodable lines — provided dispatch itself never fails (malformed lines
alone never terminate the stream). -/
theorem claim_C6_counts (env : BotEnv) (f : Fetch) (lines : List RawLine)
    (q : List Event)
    (h : ∀ fields, RawLine.record fields ∈ lines → ∀ q2,
        (dispatchEvent env f (stampLive fields) q2).result = StepResult.ok) :
    (processLines env f lines q).dispatched =
      lines.countP (fun l => (decodeLine l).isSome)
    ∧ (processLines env f lines q).skippedLogs.length =
      lines.countP (fun l => (decodeLine l).isNone)
    ∧ (processLines env f lines q).result = StepResult.ok := by
  revert h
  induction lines generalizing q with
  | nil =>
    intro h
    simp [processLines]
  | cons l rest ih =>
    intro h
    have hrest : ∀ fields, RawLine.record fields ∈ rest → ∀ q2,
        (dispatchEvent env f (stampLive fields) q2).result = StepResult.ok :=
      fun fields hm q2 => h fields (List.mem_cons_of_mem _ hm) q2
    cases l with
    | unparsable s =>
      obtain ⟨h1, h2, h3⟩ := ih q hrest
      simp [processLines, decodeLine, List.countP_cons, h1, h2, h3]
    | record fields =>
      have hd := h fields (List.mem_cons_self _ _) q
      obtain ⟨h1, h2, h3⟩ := ih (dispatchEvent env f (stampLive fields) q).queue hrest
      simp [processLines, hd, decodeLine, List.countP_cons, h1, h2, h3]

/-- Witness for C6: one unparsable line between two decodable ones, both of
unclaimed types, under the drop-unhandled configuration. -/
theorem claim_C6_witness :
    (processLines envDrop f0
      [RawLine.record [("type", FieldValue.str "wave")], RawLine.unparsable "oops",
        RawLine.record [("type", FieldValue.str "wave")]] []).dispatched =
      ([RawLine.record [("type", FieldValue.str "wave")], RawLine.unparsable "oops",
        RawLine.record [("type", FieldValue.str "wave")]].countP
          (fun l => (decodeLine l).isSome))
    ∧ (processLines envDrop f0
      [RawLine.record [("type", FieldValue.str "wave")], RawLine.unparsable "oops",
        RawLine.record [("type", FieldValue.str "wave")]] []).skippedLogs.length =
      ([RawLine.record [("type", FieldValue.str "wave")], RawLine.unparsable "oops",
        RawLine.record [("type", FieldValue.str "wave")]].countP
          (fun l => (decodeLine l).isNone))
    ∧ (processLines envDrop f0
      [RawLine.record [("type", FieldValue.str "wave")], RawLine.unparsable "oops",
        RawLine.record [("type", FieldValue.str "wave")]] []).result = StepResult.ok :=
  claim_C6_counts envDrop f0
    [RawLine.record [("type", FieldValue.str "wave")], RawLine.unparsable "oops",
      RawLine.record [("type", FieldValue.str "wave")]] []
    (by
      have hwave : ∀ q2,
          (dispatchEvent envDrop f0 (stampLive [("type", FieldValue.str "wave")]) q2).result =
            StepResult.ok := by
        intro q2
        have hg : Event.get (stampLive [("type", FieldValue.str "wave")]) "type" =
            some (FieldValue.str "wave") := by decide
        have hint : internalMessageHandlers "wave" = none := by decide
        have hlk : lookupTable ([] : HandlerTable) "wave" = none := rfl
        simp [dispatchEvent, hg, hint, externalDispatch, hlk, offerToQueue, envDrop]
      intro fields hm q2
      simp only [List.mem_cons, List.not_mem_nil, or_false] at hm
      rcases hm with hm | hm | hm
      · injection hm with hfields
        subst hfields
        exact hwave q2
      · exact RawLine.noConfusion hm
      · injection hm with hfields
        subst hfields
        exact hwave q2)

/-- Lookup after a map assignment finds the assigned list. -/
theorem lookupTable_setTable (tbl : HandlerTable) (t : String)
    (hs : List ExtHandler) : lookupTable (setTable tbl t hs) t = some hs := by
  simp [lookupTable, setTable, List.find?]

/-- Claim C7: registration appends, so the per-type handler list is in
registration order; handlers run synchronously in list order and the first
error aborts the remaining handlers of that event; the error becomes the
fatal result of external dispatch; and a fatal dispatch result stops the
stream loop at that event, so no later line of the attempt is dispatched. -/
theorem claim_C7_handlers :
    (∀ tbl t eh, lookupTable (RegisterMessageHandler tbl t eh) t =
      some ((lookupTable tbl t).getD [] ++ [eh]))
    ∧ (∀ e hs, (∀ p, p ∈ hs → p.2 e = none) →
      runExternalHandlers e hs = (hs.map Prod.fst, none))
    ∧ (∀ e pre n hb post err, (∀ p, p ∈ pre → p.2 e = none) → hb e = some err →
      runExternalHandlers e (pre ++ (n, hb) :: post) =
        (pre.map Prod.fst ++ [n], some err))
    ∧ (∀ env e t q ehs names err,
      lookupTable env.eventHandlers t = some ehs →
      runExternalHandlers e ehs = (names, some err) →
      0 < ehs.length →
      externalDispatch env e t q =
        ⟨q, names.map (HandlerCall.external t), StepResult.fatal err⟩)
    ∧ (∀ env f fields rest q err,
      (dispatchEvent env f (stampLive fields) q).result = StepResult.fatal err →
      processLines env f (RawLine.record fields :: rest) q =
        ⟨(dispatchEvent env f (stampLive fields) q).queue, 1, [],
          StepResult.fatal err⟩) := by
  refine ⟨?_, ?_, ?_, ?_, ?_⟩
  · intro tbl t eh
    unfold RegisterMessageHandler
    cases hl : lookupTable tbl t with
    | none => simp [hl, lookupTable_setTable]
    | some ehs => simp [hl, lookupTable_setTable]
  · intro e hs hall
    induction hs with
    | nil => simp [runExternalHandlers]
    | cons p rest ih =>
      obtain ⟨n, hb⟩ := p
      have h1 : hb e = none := hall (n, hb) (List.mem_cons_self _ _)
      have h2 := ih (fun p hp => hall p (List.mem_cons_of_mem _ hp))
      simp [runExternalHandlers, h1, h2]
  · intro e pre n hb post err hall herr
    induction pre with
    | nil => simp [runExternalHandlers, herr]
    | cons p rest ih =>
      obtain ⟨n2, hb2⟩ := p
      have h1 : hb2 e = none := hall (n2, hb2) (List.mem_cons_self _ _)
      have h2 := ih (fun p hp => hall p (List.mem_cons_of_mem _ hp))
      simp [runExternalHandlers, h1, h2]
  · intro env e t q ehs names err hl hrun hlen
    simp [externalDispatch, hl, hlen, hrun]
  · intro env f fields rest q err hd
    simp [processLines, hd]

/-- Witness for C7: two handlers registered for `wave` — the first succeeds
and the second fails, aborting dispatch; a second stream line is never
dispatched. -/
theorem claim_C7_witness :
    lookupTable (RegisterMessageHandler [] "wave" hOk) "wave" =
      some ((lookupTable ([] : HandlerTable) "wave").getD [] ++ [hOk])
    ∧ runExternalHandlers eWave [hOk, hBad] = (["h1", "h2"], some "boom")
    ∧ externalDispatch envH eWave "wave" [] =
      ⟨[], [HandlerCall.external "wave" "h1", HandlerCall.external "wave" "h2"],
        StepResult.fatal "boom"⟩
    ∧ processLines envH f0
        [RawLine.record [("type", FieldValue.str "wave")],
          RawLine.record [("type", FieldValue.str "wave")]] [] =
      ⟨[], 1, [], StepResult.fatal "boom"⟩ := by
  have hsingle : ∀ p, p ∈ [hOk] → p.2 eWave = none := by
    intro p hp
    rw [List.mem_singleton] at hp
    subst hp
    rfl
  have hrun : runExternalHandlers eWave [hOk, hBad] = (["h1", "h2"], some "boom") :=
    claim_C7_handlers.2.2.1 eWave [hOk] "h2" (fun _ => some "boom") [] "boom" hsingle rfl
  have hdisp : externalDispatch envH eWave "wave" [] =
      ⟨[], [HandlerCall.external "wave" "h1", HandlerCall.external "wave" "h2"],
        StepResult.fatal "boom"⟩ :=
    claim_C7_handlers.2.2.2.1 envH eWave "wave" [] [hOk, hBad] ["h1", "h2"] "boom"
      rfl hrun (by decide)
  have hdisp2 : externalDispatch envH (stampLive [("type", FieldValue.str "wave")]) "wave" [] =
      ⟨[], [HandlerCall.external "wave" "h1", HandlerCall.external "wave" "h2"],
        StepResult.fatal "boom"⟩ := hdisp
  have hg : Event.get (stampLive [("type", FieldValue.str "wave")]) "type" =
      some (FieldValue.str "wave") := by decide
  have hint : internalMessageHandlers "wave" = none := by decide
  have hstep : (dispatchEvent envH f0 (stampLive [("type", FieldValue.str "wave")]) []).result =
      StepResult.fatal "boom" := by
    simp [dispatchEvent, hg, hint, hdisp2]
  refine ⟨claim_C7_handlers.1 [] "wave" hOk, hrun, hdisp, ?_⟩
  have hloop := claim_C7_handlers.2.2.2.2 envH f0 [("type", FieldValue.str "wave")]
    [RawLine.record [("type", FieldValue.str "wave")]] [] "boom" hstep
  rw [hloop]
  have hq : (dispatchEvent envH f0 (stampLive [("type", FieldValue.str "wave")]) []).queue = [] := by
    simp [dispatchEvent, hg, hint, hdisp2]
  rw [hq]

/-- Unrolling of the supervisor from an arbitrary state: the values sent on
`errChan` are exactly the result of the first attempt ending with the parent
context cancelled or auto-reconnect off, and each attempt up to and
including that one armed a fresh watchdog via `Start`. -/
theorem Start_unroll (ar : Bool) (attempts : List AttemptSpec) (s : SupState) :
    (Start ar attempts s).surfaced =
      s.surfaced ++ ((attempts.find? (fun a => !(a.parentAlive && ar))).map
        AttemptSpec.result).toList
    ∧ (Start ar attempts s).started =
      s.started + min ((attempts.takeWhile (fun a => a.parentAlive && ar)).length + 1)
        attempts.length := by
  induction attempts generalizing s with
  | nil => simp [Start]
  | cons a rest ih =>
    by_cases hp : (a.parentAlive && ar) = true
    · obtain ⟨h1, h2⟩ := ih ⟨s.started + 1, s.surfaced⟩
      refine ⟨?_, ?_⟩
      · simp [Start, hp, List.find?, h1]
      · simp [Start, hp, List.takeWhile, h2]
        omega
    · rw [Bool.not_eq_true] at hp
      refine ⟨?_, ?_⟩
      · simp [Start, hp, List.find?]
      · simp [Start, hp, List.takeWhile]

/-- Claim C8: attempts ending with the parent lifetime alive and
auto-reconnect on surface no error and start a fresh attempt (with a fresh
idle watchdog); the first attempt ending otherwise is terminal — its
returned value is the only value ever sent on `errChan` (at most one send),
and the blocking `Err` accessor yields exactly that value. -/
theorem claim_C8_supervisor (ar : Bool) (attempts : List AttemptSpec) :
    (Start ar attempts ⟨0, []⟩).surfaced =
      ((attempts.find? (fun a => !(a.parentAlive && ar))).map AttemptSpec.result).toList
    ∧ Err (Start ar attempts ⟨0, []⟩) =
      (attempts.find? (fun a => !(a.parentAlive && ar))).map AttemptSpec.result
    ∧ (Start ar attempts ⟨0, []⟩).surfaced.length ≤ 1
    ∧ (Start ar attempts ⟨0, []⟩).started =
      min ((attempts.takeWhile (fun a => a.parentAlive && ar)).length + 1)
        attempts.length := by
  obtain ⟨h1, h2⟩ := Start_unroll ar attempts ⟨0, []⟩
  have h1s : (Start ar attempts ⟨0, []⟩).surfaced =
      ((attempts.find? (fun a => !(a.parentAlive && ar))).map AttemptSpec.result).toList := by
    simpa using h1
  refine ⟨h1s, ?_, ?_, by simpa using h2⟩
  · rw [Err, h1s]
    cases attempts.find? (fun a => !(a.parentAlive && ar)) <;> simp
  · rw [h1s]
    cases attempts.find? (fun a => !(a.parentAlive && ar)) <;> simp

/-- Claim C10: a stream attempt whose transport reaches a clean end of
stream returns a nil error, and when reconnection is not taken the blocking
error accessor yields that nil value. -/
theorem claim_C10_nil_error (session : String) (env : BotEnv) (f : Fetch)
    (lines : List RawLine) (q : List Event) (ar alive : Bool)
    (hs : session ≠ "")
    (hok : (processLines env f lines q).result = StepResult.ok)
    (hterm : (alive && ar) = false) :
    (listenAndParseEvents session env f (ConnectResult.stream lines StreamEnd.eof) q).2 =
      AttemptResult.ret none
    ∧ Err (Start ar [⟨none, alive⟩] ⟨0, []⟩) = some none := by
  constructor
  · simp [listenAndParseEvents, hs, hok]
  · simp [Start, hterm, Err]

/-- Witness for C10: empty stream read to a clean end with auto-reconnect on
but the outer lifetime cancelled — `Err` yields `nil`. -/
theorem claim_C10_witness :
    (listenAndParseEvents "abc" envND f0 (ConnectResult.stream [] StreamEnd.eof) []).2 =
      AttemptResult.ret none
    ∧ Err (Start true [⟨none, false⟩] ⟨0, []⟩) = some none :=
  claim_C10_nil_error "abc" envND f0 [] [] true false (by decide) rfl rfl

end Bot
